import Mathlib

/-!
Verification development for `label_videos.py`: a shallow embedding of the
script's core (label resolution, filename sanitizing, second-to-frame mapping,
the per-frame overlay/emit loop, output naming, and the per-record control flow
of `process_video`), together with theorems about the spec's claims.

Python floats are modelled as exact rationals (`ℚ`); Python machine behaviour
such as `int(...)` truncation and `str.strip` whitespace stripping is modelled
over ASCII as noted at each definition.
-/

namespace LabelVideos

/-- The fixed 10-entry label table (`LABEL_MAP`, lines 10-21 of the source). -/
def LABEL_MAP : List (Int × String) :=
  [(0, "walk"), (1, "fall"), (2, "fallen"), (3, "sit_down"), (4, "sitting"),
   (5, "lie_down"), (6, "lying"), (7, "stand_up"), (8, "standing"), (9, "other")]

/-- Model of Python `str.isalnum` on a single character.  Exact on ASCII
(letters `A-Za-z` and digits `0-9`).  On non-ASCII codepoints Python follows
the Unicode categories (letters and numbers count as alphanumeric); that is
modelled here only for the non-ASCII codepoint this development uses:
U+00E9 (`é`) is a Unicode letter, hence alphanumeric. -/
def pyIsAlnum (c : Char) : Bool :=
  c.isAlpha || c.isDigit || c == 'é'

/-- One character of the generator in `sanitize_filename_component`
(line 25): keep the character if it is alphanumeric or one of
space, `.`, `_`; otherwise replace it with `_`. -/
def keepChar (c : Char) : Char :=
  if pyIsAlnum c || c == ' ' || c == '.' || c == '_' then c else '_'

/-- The final `.replace(' ', '_')` of line 25, per character. -/
def spaceToUnderscore (c : Char) : Char :=
  if c == ' ' then '_' else c

/-- `sanitize_filename_component` (lines 23-25): map every character that is
not alphanumeric, space, `.` or `_` to `_`, then replace spaces by `_`. -/
def sanitize_filename_component (s : String) : String :=
  ((s.toList.map keepChar).map spaceToUnderscore).asString

/-- ASCII whitespace, modelling the characters `str.strip` removes
(Python also strips non-ASCII Unicode whitespace, not modelled). -/
def isPySpace (c : Char) : Bool :=
  c == ' ' || c == '\t' || c == '\n' || c == '\r' || c == '\x0b' || c == '\x0c'

/-- Numeric value of an ASCII digit. -/
def digitVal (c : Char) : Nat := c.toNat - 48

/-- Accumulating scan of the digits of an integer literal after its first
digit; a single `_` is allowed between two digits (Python grouping). -/
def pyIntGo (acc : Nat) : List Char → Option Nat
  | [] => some acc
  | '_' :: c :: rest =>
      if c.isDigit then pyIntGo (acc * 10 + digitVal c) rest else none
  | c :: rest =>
      if c.isDigit then pyIntGo (acc * 10 + digitVal c) rest else none

/-- Digits of an integer literal: nonempty, starting with a digit. -/
def pyIntDigits : List Char → Option Nat
  | [] => none
  | c :: rest => if c.isDigit then pyIntGo (digitVal c) rest else none

/-- Model of Python `int(s)` for `str` input: strip surrounding whitespace,
allow one leading `+` or `-`, then a nonempty ASCII digit string with optional
single `_` separators between digits; anything else raises `ValueError`,
modelled as `none`.  (Python additionally accepts non-ASCII decimal digits
and whitespace; not modelled.) -/
def pyParseInt (s : String) : Option Int :=
  let cs := ((s.toList.dropWhile isPySpace).reverse.dropWhile isPySpace).reverse
  match cs with
  | '+' :: rest => (pyIntDigits rest).map (fun n => (n : Int))
  | '-' :: rest => (pyIntDigits rest).map (fun n => -(n : Int))
  | rest => (pyIntDigits rest).map (fun n => (n : Int))

/-- Result of the label-resolution block: the tag to write and whether a
warning-level log line was emitted. -/
structure ResolvedLabel where
  tag : String
  warned : Bool
  deriving Repr, DecidableEq

/-- Lines 33-40 of the source: parse the raw label as an integer; on success
look it up in `LABEL_MAP`, falling back to `Unknown_Label_<raw>` with a
warning; on `ValueError` fall back to `Invalid_Label_<raw>` with a warning. -/
def resolveLabel (raw : String) : ResolvedLabel :=
  match pyParseInt raw with
  | some n =>
      match LABEL_MAP.lookup n with
      | some tag => ⟨tag, false⟩
      | none => ⟨"Unknown_Label_" ++ raw, true⟩
  | none => ⟨"Invalid_Label_" ++ raw, true⟩

/-- Floor of a rational, in executable form (`Rat.floor_def` shows this is
`⌊q⌋`). -/
def ratFloor (q : ℚ) : Int := q.num / q.den

/-- Model of Python `int(...)` applied to a float (here: rational):
truncation toward zero. -/
def pyInt (q : ℚ) : Int :=
  if 0 ≤ q then ratFloor q else -ratFloor (-q)

/-- Lines 59-60: `start_frame = int(start_sec * fps)`,
`end_frame = int(end_sec * fps)`. -/
def frameWindow (start_sec end_sec fps : ℚ) : Int × Int :=
  (pyInt (start_sec * fps), pyInt (end_sec * fps))

/-- `os.path.basename` for POSIX paths: the part after the last `/`. -/
def basename (p : String) : String :=
  ((p.toList.reverse.takeWhile (fun c => c ≠ '/')).reverse).asString

/-- Index of the last `.` in a character list, if any. -/
def lastDotIdx (cs : List Char) : Option Nat :=
  match cs.reverse.findIdx? (fun c => c == '.') with
  | some j => some (cs.length - 1 - j)
  | none => none

/-- `os.path.splitext(p)[0]` for a path without separators: drop the extension
at the last `.`, unless every character before that dot is itself a dot
(so `.bashrc` keeps its name). -/
def splitextRoot (p : String) : String :=
  match lastDotIdx p.toList with
  | none => p
  | some d =>
      if (p.toList.take d).all (fun c => c == '.') then p
      else (p.toList.take d).asString

/-- Nearest integer to a rational, ties to even: the rounding Python's
`format(x, ".1f")` applies to the scaled value. -/
def roundHalfEven (q : ℚ) : Int :=
  let f := ratFloor q
  let r := q - (f : ℚ)
  if r < 1/2 then f
  else if 1/2 < r then f + 1
  else if f % 2 = 0 then f else f + 1

/-- Decimal digits of a natural number. -/
def natDigits (n : Nat) : String := toString n

/-- Model of the f-string conversion `{x:.1f}`: the value rounded to one
decimal place (half to even) and printed with exactly one fractional digit. -/
def fmt1 (q : ℚ) : String :=
  let n := roundHalfEven (q * 10)
  if n < 0 then
    "-" ++ natDigits ((-n).toNat / 10) ++ "." ++ natDigits ((-n).toNat % 10)
  else
    natDigits (n.toNat / 10) ++ "." ++ natDigits (n.toNat % 10)

/-- Whether a string starts with `/`. -/
def headIsSlash (b : String) : Bool :=
  match b.toList with
  | '/' :: _ => true
  | _ => false

/-- Whether a string ends with `/`. -/
def lastIsSlash (a : String) : Bool :=
  match a.toList.reverse with
  | '/' :: _ => true
  | _ => false

/-- `os.path.join` for POSIX paths, two arguments. -/
def osPathJoin (a b : String) : String :=
  if headIsSlash b then b
  else if a = "" || lastIsSlash a then a ++ b
  else a ++ "/" ++ b

/-- Lines 62-68: the output file name
`<base>_<subject>_<camera>_<label>_<start>s_<end>s.mp4` built from the source
video's base name and the sanitized subject, camera and label fields. -/
def outputFilename (video_path subject cam label_to_write : String)
    (start_sec end_sec : ℚ) : String :=
  let original_basename := splitextRoot (basename video_path)
  let label_sanitized := sanitize_filename_component label_to_write
  let subject_sanitized := sanitize_filename_component subject
  let cam_sanitized := sanitize_filename_component cam
  original_basename ++ "_" ++ subject_sanitized ++ "_" ++ cam_sanitized ++ "_" ++
    label_sanitized ++ "_" ++ fmt1 start_sec ++ "s_" ++ fmt1 end_sec ++ "s.mp4"

/-- Line 68: `output_video_path = os.path.join(output_dir, output_filename)`. -/
def outputVideoPath (output_dir video_path subject cam label_to_write : String)
    (start_sec end_sec : ℚ) : String :=
  osPathJoin output_dir (outputFilename video_path subject cam label_to_write start_sec end_sec)

/-- A frame leaving the loop body: the decoded frame either as read
(`plain`) or with the label text burned in by `cv2.putText` (`overlaid`). -/
inductive OutFrame (α : Type) where
  | plain (f : α)
  | overlaid (label : String) (f : α)
  deriving Repr, DecidableEq

/-- Whether the label text was burned into this frame. -/
def OutFrame.isOverlaid {α : Type} : OutFrame α → Bool
  | .plain _ => false
  | .overlaid _ _ => true

/-- Line 93: `is_in_labeled_segment = (start_frame <= frame_idx <= end_frame)`. -/
def inSegment (start_frame end_frame : Int) (frame_idx : Nat) : Bool :=
  decide (start_frame ≤ (frame_idx : Int) ∧ (frame_idx : Int) ≤ end_frame)

/-- The `while True` loop of lines 86-113, one record per source frame: the
frame after the conditional `putText` (line 95-103) paired with whether
`out.write(frame)` ran for it (lines 105-111).  `frame_idx` starts at 0 and
increments by one per frame; the loop ends when the source yields no frame. -/
def processFrames {α : Type} (start_frame end_frame : Int) (label : String)
    (clip_only : Bool) : List α → Nat → List (OutFrame α × Bool)
  | [], _ => []
  | f :: rest, frame_idx =>
      let inSeg := inSegment start_frame end_frame frame_idx
      let frame : OutFrame α := if inSeg then .overlaid label f else .plain f
      let emit := if clip_only then inSeg else true
      (frame, emit) :: processFrames start_frame end_frame label clip_only rest (frame_idx + 1)

/-- The sequence of frames actually passed to `out.write`, in order. -/
def writtenFrames {α : Type} (start_frame end_frame : Int) (label : String)
    (clip_only : Bool) (frames : List α) : List (OutFrame α) :=
  ((processFrames start_frame end_frame label clip_only frames 0).filter
    (fun p => p.2)).map (fun p => p.1)

/-- The loop's `frames_written` counter: incremented exactly at each
`out.write` (lines 107-108 and 110-111). -/
def framesWritten {α : Type} (start_frame end_frame : Int) (label : String)
    (clip_only : Bool) (frames : List α) : Nat :=
  ((processFrames start_frame end_frame label clip_only frames 0).filter
    (fun p => p.2)).length

/-- Severity of a `logging` call. -/
inductive LogLevel where
  | info
  | warning
  | error
  deriving Repr, DecidableEq

/-- Lines 118-121: after the loop, an info line when frames were written and
a warning when `frames_written` is 0. -/
def finalLog (frames_written : Nat) : LogLevel :=
  if 0 < frames_written then .info else .warning

/-- Observable trace of one `process_video` call: the log severities in
order, and for each of the two cv2 handles whether it was constructed,
whether it reported open, and whether `release()` was called on it. -/
structure PVTrace where
  logs : List LogLevel
  capConstructed : Bool
  capOpened : Bool
  capReleased : Bool
  writerConstructed : Bool
  writerOpened : Bool
  writerReleased : Bool
  framesWritten : Nat
  deriving Repr, DecidableEq

/-- `process_video` (lines 27-121) as a trace function.  The environment is
abstracted by: `found` (`os.path.exists`), `opens` (`cap.isOpened()`),
`writerOpens` (`out.isOpened()`), `fps0` (`cap.get(CAP_PROP_FPS)`), and
`frames` (the sequence `cap.read()` yields).  Control flow, logging order,
and `release()` calls follow the source line by line. -/
def process_video {α : Type} (found opens writerOpens : Bool) (fps0 : ℚ)
    (frames : List α) (numeric_label_str : String) (start_sec end_sec : ℚ)
    (clip_only : Bool) : PVTrace :=
  let r := resolveLabel numeric_label_str
  let logs0 : List LogLevel := if r.warned then [.warning] else []
  if ¬ found then
    -- lines 42-44: missing file, error, return; no handle constructed
    ⟨logs0 ++ [.error], false, false, false, false, false, false, 0⟩
  else if ¬ opens then
    -- lines 46-49: capture constructed but not opened; error, return
    ⟨logs0 ++ [.error], true, false, false, false, false, false, 0⟩
  else
    -- lines 51-54: fps fallback to 30, reported at error level
    let fpsLogs : List LogLevel := if fps0 = 0 then [.error] else []
    let fps := if fps0 = 0 then (30 : ℚ) else fps0
    let w := frameWindow start_sec end_sec fps
    if ¬ writerOpens then
      -- lines 75-78: writer constructed but not opened; error, cap released
      ⟨logs0 ++ fpsLogs ++ [.error], true, true, true, true, false, false, 0⟩
    else
      -- lines 80-84: two info lines, then the loop, then both releases
      let n := framesWritten w.1 w.2 r.tag clip_only frames
      ⟨logs0 ++ fpsLogs ++ [.info, .info] ++ [finalLog n],
        true, true, true, true, true, true, n⟩

/-! ## Helper lemmas -/

/-- The character set `[A-Za-z0-9_.]` named by the spec. -/
def asciiSafe (c : Char) : Bool :=
  c.isAlpha || c.isDigit || c == '_' || c == '.'

lemma keepChar_cases (c : Char) : keepChar c = c ∨ keepChar c = '_' := by
  unfold keepChar
  split
  · exact Or.inl rfl
  · exact Or.inr rfl

lemma spaceToUnderscore_cases (c : Char) :
    spaceToUnderscore c = c ∨ spaceToUnderscore c = '_' := by
  unfold spaceToUnderscore
  split
  · exact Or.inr rfl
  · exact Or.inl rfl

/-- Every character produced by the sanitizer's two passes is alphanumeric
(in the Python sense), a dot, or an underscore. -/
lemma sanitized_char (c : Char) :
    pyIsAlnum (spaceToUnderscore (keepChar c)) = true ∨
    spaceToUnderscore (keepChar c) = '.' ∨ spaceToUnderscore (keepChar c) = '_' := by
  by_cases h : (pyIsAlnum c || c == ' ' || c == '.' || c == '_') = true
  · rw [keepChar, if_pos h]
    by_cases hs : c = ' '
    · subst hs; right; right; decide
    · rw [spaceToUnderscore, if_neg (by simpa using hs)]
      rcases Bool.or_eq_true _ _ |>.mp h with h1 | h4
      · rcases Bool.or_eq_true _ _ |>.mp h1 with h2 | h3
        · rcases Bool.or_eq_true _ _ |>.mp h2 with ha | hsp
          · exact Or.inl ha
          · exact absurd (by simpa using hsp) hs
        · right; left; simpa using h3
      · right; right; simpa using h4
  · rw [keepChar, if_neg h]; right; right; decide

lemma keepChar_fix {c : Char}
    (h : pyIsAlnum c = true ∨ c = '.' ∨ c = '_') : keepChar c = c := by
  rcases h with h | h | h
  · rw [keepChar, if_pos]; simp [h]
  · subst h; decide
  · subst h; decide

lemma spaceToUnderscore_fix {c : Char}
    (h : pyIsAlnum c = true ∨ c = '.' ∨ c = '_') : spaceToUnderscore c = c := by
  have hne : c ≠ ' ' := by
    rintro rfl
    rcases h with h | h | h
    · exact absurd h (by decide)
    · exact absurd h (by decide)
    · exact absurd h (by decide)
  rw [spaceToUnderscore, if_neg (by simpa using hne)]

lemma asciiSafe_of_ascii {a : Char} (ha : a.toNat < 128) :
    asciiSafe (spaceToUnderscore (keepChar a)) = true := by
  rcases keepChar_cases a with hk | hk
  · rcases spaceToUnderscore_cases (keepChar a) with hsp | hsp
    · rw [hk] at hsp
      rw [hk, hsp]
      rcases sanitized_char a with h | h | h
      · rw [hk, hsp] at h
        rw [pyIsAlnum] at h
        rcases Bool.or_eq_true _ _ |>.mp h with h1 | h2
        · rcases Bool.or_eq_true _ _ |>.mp h1 with hα | hd
          · simp [asciiSafe, hα]
          · simp [asciiSafe, hd]
        · have : a = 'é' := by simpa using h2
          subst this
          exact absurd ha (by decide)
      · rw [hk, hsp] at h; subst h; decide
      · rw [hk, hsp] at h; subst h; decide
    · rw [hsp]; decide
  · rw [hk]
    rcases spaceToUnderscore_cases '_' with hsp | hsp
    · rw [hsp]; decide
    · rw [hsp]; decide

lemma ratFloor_eq (q : ℚ) : ratFloor q = ⌊q⌋ := Rat.floor_def.symm

lemma pyInt_of_nonneg {q : ℚ} (h : 0 ≤ q) : pyInt q = ⌊q⌋ := by
  rw [pyInt, if_pos h, ratFloor_eq]

lemma frameWindow_ex1 : frameWindow 0 0 30 = (0, 0) := by
  rw [frameWindow, pyInt_of_nonneg (by norm_num)]
  norm_num

lemma frameWindow_ex2 : frameWindow 1 (5 / 2) 10 = (10, 25) := by
  rw [frameWindow, pyInt_of_nonneg (by norm_num), pyInt_of_nonneg (by norm_num),
    show ((1 : ℚ) * 10) = ((10 : ℤ) : ℚ) by norm_num,
    show ((5 : ℚ) / 2 * 10) = ((25 : ℤ) : ℚ) by norm_num,
    Int.floor_intCast, Int.floor_intCast]

lemma roundHalfEven_intCast (n : Int) : roundHalfEven ((n : ℚ)) = n := by
  have hf : ratFloor ((n : ℚ)) = n := by rw [ratFloor_eq, Int.floor_intCast]
  simp only [roundHalfEven, hf]
  norm_num

lemma fmt1_of_nonneg (q : ℚ) (n : Int) (h : roundHalfEven (q * 10) = n) (hn : 0 ≤ n) :
    fmt1 q = natDigits (n.toNat / 10) ++ "." ++ natDigits (n.toNat % 10) := by
  simp only [fmt1, h]
  rw [if_neg (by omega)]

lemma fmt1_one : fmt1 1 = "1.0" := by
  rw [fmt1_of_nonneg 1 10
    (by rw [show ((1 : ℚ) * 10) = ((10 : ℤ) : ℚ) by norm_num, roundHalfEven_intCast])
    (by norm_num)]
  rfl

lemma fmt1_five_halves : fmt1 (5 / 2) = "2.5" := by
  rw [fmt1_of_nonneg (5 / 2) 25
    (by rw [show ((5 : ℚ) / 2 * 10) = ((25 : ℤ) : ℚ) by norm_num, roundHalfEven_intCast])
    (by norm_num)]
  rfl

/-! ## Claim theorems -/

/-- Claim C6: the Filename Sanitizer is idempotent:
`sanitize(sanitize(x)) = sanitize(x)` for every string `x`. -/
theorem sanitize_idempotent (x : String) :
    sanitize_filename_component (sanitize_filename_component x)
      = sanitize_filename_component x := by
  unfold sanitize_filename_component
  rw [List.toList_asString]
  congr 1
  rw [List.map_map, List.map_map, List.map_map, List.map_map]
  refine List.map_congr_left ?_
  intro c _
  show spaceToUnderscore (keepChar (spaceToUnderscore (keepChar c)))
      = spaceToUnderscore (keepChar c)
  rw [keepChar_fix (sanitized_char c), spaceToUnderscore_fix (sanitized_char c)]

/-- Claim C7 (as stated) is false: on input `"é"` the sanitizer keeps the
non-ASCII letter `é` (Python's `str.isalnum` is Unicode-aware), so the output
contains a character outside `[A-Za-z0-9_.]`. -/
theorem sanitize_charset_counterexample :
    sanitize_filename_component "é" = "é" ∧
    ¬ (∀ c ∈ (sanitize_filename_component "é").toList, asciiSafe c = true) := by
  constructor
  · decide
  · intro h
    exact absurd (h 'é' (by decide)) (by decide)

/-- Claim C7 (amended): every output character of the Filename Sanitizer is
alphanumeric (in Python's Unicode sense), `.`, or `_` — each character that
is not alphanumeric, space, `.` or `_` is replaced by `_`, then spaces are
replaced by `_` — and when the input is ASCII, the output contains no
character outside `[A-Za-z0-9_.]`. -/
theorem sanitize_charset (x : String) :
    (∀ c ∈ (sanitize_filename_component x).toList,
        pyIsAlnum c = true ∨ c = '.' ∨ c = '_') ∧
    ((∀ c ∈ x.toList, c.toNat < 128) →
      ∀ c ∈ (sanitize_filename_component x).toList, asciiSafe c = true) := by
  constructor
  · intro c hc
    rw [sanitize_filename_component, List.toList_asString, List.map_map] at hc
    rcases List.mem_map.mp hc with ⟨a, _, rfl⟩
    exact sanitized_char a
  · intro hx c hc
    rw [sanitize_filename_component, List.toList_asString, List.map_map] at hc
    rcases List.mem_map.mp hc with ⟨a, ha, rfl⟩
    exact asciiSafe_of_ascii (hx a ha)

/-- Witness for C7's amended claim at a concrete input: `"a b"` is ASCII,
sanitizes to `"a_b"`, and its underscore is in `[A-Za-z0-9_.]`. -/
theorem sanitize_charset_witness : asciiSafe '_' = true :=
  (sanitize_charset "a b").2 (by decide) '_' (by decide)

/-- Claim C4: for `0 ≤ a ≤ b` and `fps > 0`, the Segment Mapper returns the
inclusive window `(⌊a·fps⌋, ⌊b·fps⌋)` by truncating multiplication, hence
`start_frame ≤ end_frame`; concretely `frameWindow 0 0 30 = (0, 0)` and
`frameWindow 1 2.5 10 = (10, 25)`. -/
theorem frameWindow_spec (a b fps : ℚ) (h0 : 0 ≤ a) (hab : a ≤ b) (hf : 0 < fps) :
    frameWindow a b fps = (⌊a * fps⌋, ⌊b * fps⌋) ∧
    (frameWindow a b fps).1 ≤ (frameWindow a b fps).2 ∧
    frameWindow 0 0 30 = (0, 0) ∧ frameWindow 1 (5 / 2) 10 = (10, 25) := by
  have ha : (0 : ℚ) ≤ a * fps := mul_nonneg h0 hf.le
  have hb : (0 : ℚ) ≤ b * fps := mul_nonneg (h0.trans hab) hf.le
  have hw : frameWindow a b fps = (⌊a * fps⌋, ⌊b * fps⌋) := by
    unfold frameWindow
    rw [pyInt_of_nonneg ha, pyInt_of_nonneg hb]
  refine ⟨hw, ?_, frameWindow_ex1, frameWindow_ex2⟩
  rw [hw]
  exact Int.floor_le_floor (mul_le_mul_of_nonneg_right hab hf.le)

/-- Witness for C4 at `a = 1`, `b = 5/2`, `fps = 10`. -/
theorem frameWindow_spec_witness : frameWindow 1 (5 / 2) 10 = (10, 25) :=
  (frameWindow_spec 1 (5 / 2) 10 (by norm_num) (by norm_num) (by norm_num)).2.2.2

lemma resolveLabel_parsed {raw : String} {n : Int}
    (h1 : pyParseInt raw = some n) :
    resolveLabel raw =
      match LABEL_MAP.lookup n with
      | some tag => ⟨tag, false⟩
      | none => ⟨"Unknown_Label_" ++ raw, true⟩ := by
  rw [resolveLabel, h1]

/-- Claim C5: the Label Resolver is total: a raw string parsing to a code in
the table yields the table's tag with no warning (code 7 yields `stand_up`);
a parsable code absent from the table yields `Unknown_Label_<raw>` with a
warning; an unparsable raw yields `Invalid_Label_<raw>` with a warning. -/
theorem resolveLabel_spec (raw : String) :
    (∀ n tag, pyParseInt raw = some n → LABEL_MAP.lookup n = some tag →
        resolveLabel raw = ⟨tag, false⟩) ∧
    (∀ n, pyParseInt raw = some n → LABEL_MAP.lookup n = none →
        resolveLabel raw = ⟨"Unknown_Label_" ++ raw, true⟩) ∧
    (pyParseInt raw = none → resolveLabel raw = ⟨"Invalid_Label_" ++ raw, true⟩) ∧
    resolveLabel "7" = ⟨"stand_up", false⟩ := by
  refine ⟨?_, ?_, ?_, by decide⟩
  · intro n tag h1 h2
    rw [resolveLabel_parsed h1, h2]
  · intro n h1 h2
    rw [resolveLabel_parsed h1, h2]
  · intro h1
    rw [resolveLabel, h1]

/-- Witness for C5 at the raw label `"99"`: parses, absent from the table,
resolved to `Unknown_Label_99` with a warning. -/
theorem resolveLabel_spec_witness :
    resolveLabel "99" = ⟨"Unknown_Label_99", true⟩ :=
  (resolveLabel_spec "99").2.1 99 (by decide) (by decide)

lemma processFrames_eq_enumFrom {α : Type} (s e : Int) (label : String)
    (clip_only : Bool) (frames : List α) (idx : Nat) :
    processFrames s e label clip_only frames idx =
      (frames.enumFrom idx).map (fun p =>
        (if inSegment s e p.1 then OutFrame.overlaid label p.2 else OutFrame.plain p.2,
         if clip_only then inSegment s e p.1 else true)) := by
  induction frames generalizing idx with
  | nil => rfl
  | cons f rest ih => simp [processFrames, List.enumFrom, ih]

lemma processFrames_length {α : Type} (s e : Int) (label : String)
    (clip_only : Bool) (frames : List α) (idx : Nat) :
    (processFrames s e label clip_only frames idx).length = frames.length := by
  rw [processFrames_eq_enumFrom]
  simp

/-- Claim C1: for each frame index `i`, the overlay is drawn on frame `i`
exactly when `start_frame ≤ i ≤ end_frame`, in either output mode; in
`ClipOnly` mode frame `i` is emitted exactly when it is in the segment, and
in full mode it is always emitted.  Both per-frame decisions are a function
of the window and the index alone. -/
theorem perFrame_policy {α : Type} (frames : List α) (s e : Int) (label : String)
    (clip_only : Bool) (i : Nat)
    (h : i < (processFrames s e label clip_only frames 0).length) :
    ((processFrames s e label clip_only frames 0).get ⟨i, h⟩).1.isOverlaid
        = inSegment s e i ∧
    (clip_only = true →
      ((processFrames s e label clip_only frames 0).get ⟨i, h⟩).2 = inSegment s e i) ∧
    (clip_only = false →
      ((processFrames s e label clip_only frames 0).get ⟨i, h⟩).2 = true) := by
  have hl : i < frames.length := by
    rw [processFrames_length] at h
    exact h
  have hget : (processFrames s e label clip_only frames 0).get ⟨i, h⟩ =
      (if inSegment s e i then OutFrame.overlaid label (frames.get ⟨i, hl⟩)
        else OutFrame.plain (frames.get ⟨i, hl⟩),
       if clip_only then inSegment s e i else true) := by
    rw [List.get_eq_getElem]
    simp [processFrames_eq_enumFrom, List.getElem_enumFrom]
  rw [hget]
  refine ⟨?_, fun hc => by simp [hc], fun hc => by simp [hc]⟩
  cases hs : inSegment s e i
  · rw [if_neg (by simp [hs])]; rfl
  · rw [if_pos (by simp [hs])]; rfl

/-- Witness for C1: with window `[1, 1]` over a three-frame source in
`ClipOnly` mode, frame 1 carries the overlay. -/
theorem perFrame_policy_witness :
    ((processFrames 1 1 "walk" true [10, 20, 30] 0).get ⟨1, by decide⟩).1.isOverlaid
      = inSegment 1 1 1 :=
  (perFrame_policy [10, 20, 30] 1 1 "walk" true 1 (by decide)).1

lemma framesWritten_clip_from {α : Type} (s e : Int) (label : String)
    (frames : List α) (idx : Nat) :
    ((processFrames s e label true frames idx).filter (fun p => p.2)).length
      = (min e ((idx : Int) + frames.length - 1) - max s (idx : Int) + 1).toNat := by
  induction frames generalizing idx with
  | nil =>
      simp only [processFrames, List.filter_nil, List.length_nil, List.length_cons]
      omega
  | cons f rest ih =>
      have hstep : processFrames s e label true (f :: rest) idx
          = ((if inSegment s e idx then OutFrame.overlaid label f else OutFrame.plain f),
              inSegment s e idx) :: processFrames s e label true rest (idx + 1) := by
        simp [processFrames]
      rw [hstep, List.filter_cons]
      cases hs : inSegment s e idx
      · have hs' : ¬ (s ≤ (idx : Int) ∧ (idx : Int) ≤ e) := by
          simpa [inSegment] using hs
        rw [if_neg (by simp [hs]), ih]
        simp only [List.length_cons]
        omega
      · have hs' : s ≤ (idx : Int) ∧ (idx : Int) ≤ e := by
          simpa [inSegment] using hs
        rw [if_pos (by simp [hs]), List.length_cons, ih]
        simp only [List.length_cons]
        omega

/-- Claim C2: in `ClipOnly` mode over an `N`-frame source, the number of
emitted frames is `min(end_frame, N-1) - max(start_frame, 0) + 1` clamped to
be nonnegative; when the window lies entirely outside `[0, N-1]` the count is
0 and the post-loop diagnostic is at warning level. -/
theorem clipOnly_count {α : Type} (frames : List α) (s e : Int) (label : String) :
    framesWritten s e label true frames
        = (min e ((frames.length : Int) - 1) - max s 0 + 1).toNat ∧
    ((e < 0 ∨ (frames.length : Int) ≤ s) →
      framesWritten s e label true frames = 0 ∧
      finalLog (framesWritten s e label true frames) = LogLevel.warning) := by
  have h := framesWritten_clip_from s e label frames 0
  have hmain : framesWritten s e label true frames
      = (min e ((frames.length : Int) - 1) - max s 0 + 1).toNat := by
    rw [framesWritten, h]
    norm_num
  refine ⟨hmain, fun hout => ?_⟩
  have h0 : framesWritten s e label true frames = 0 := by
    rw [hmain]
    omega
  exact ⟨h0, by rw [h0]; rfl⟩

/-- Witness for C2: window `[5, 9]` lies entirely beyond a three-frame
source, so nothing is emitted and the final diagnostic is a warning. -/
theorem clipOnly_count_witness :
    framesWritten 5 9 "L" true [0, 1, 2] = 0 ∧
    finalLog (framesWritten 5 9 "L" true [0, 1, 2]) = LogLevel.warning :=
  (clipOnly_count [0, 1, 2] 5 9 "L").2 (Or.inr (by decide))

/-- Claim C3: in `FullWithOverlay` mode (`clip_only = false`) every source
frame is emitted — the count equals the source frame count for any window —
with the label burned into exactly the frames inside the window and all other
frames forwarded unmodified. -/
theorem fullMode_emitsAll {α : Type} (frames : List α) (s e : Int) (label : String) :
    framesWritten s e label false frames = frames.length ∧
    writtenFrames s e label false frames =
      frames.enum.map (fun p =>
        if inSegment s e p.1 then OutFrame.overlaid label p.2
        else OutFrame.plain p.2) := by
  have hfull : (processFrames s e label false frames 0).filter (fun p => p.2)
      = processFrames s e label false frames 0 := by
    rw [List.filter_eq_self]
    intro p hp
    rw [processFrames_eq_enumFrom] at hp
    rcases List.mem_map.mp hp with ⟨q, _, rfl⟩
    rfl
  constructor
  · rw [framesWritten, hfull, processFrames_length]
  · rw [writtenFrames, hfull, processFrames_eq_enumFrom, List.map_map, List.enum]
    rfl

/-- Claim C8: the Output Namer is a pure function of its inputs: the path is
the run's output directory joined with
`<base>_<subject>_<camera>_<label>_<start>s_<end>s.mp4`, where `<base>` is
the source file name without directory and extension, the three middle fields
are sanitized, and the times carry one decimal place; shown in general and at
a concrete record. -/
theorem outputNamer_spec (output_dir video_path subject cam label_to_write : String)
    (a b : ℚ) :
    outputVideoPath output_dir video_path subject cam label_to_write a b
      = osPathJoin output_dir
          (splitextRoot (basename video_path) ++ "_" ++
           sanitize_filename_component subject ++ "_" ++
           sanitize_filename_component cam ++ "_" ++
           sanitize_filename_component label_to_write ++ "_" ++
           fmt1 a ++ "s_" ++ fmt1 b ++ "s.mp4") ∧
    outputVideoPath "out" "d/video.mp4" "S 1" "cam0" "walk" 1 (5 / 2)
      = "out/video_S_1_cam0_walk_1.0s_2.5s.mp4" := by
  refine ⟨rfl, ?_⟩
  have hfile : outputFilename "d/video.mp4" "S 1" "cam0" "walk" 1 (5 / 2)
      = "video_S_1_cam0_walk_1.0s_2.5s.mp4" := by
    simp only [outputFilename, fmt1_one, fmt1_five_halves]
    rfl
  show osPathJoin "out" (outputFilename "d/video.mp4" "S 1" "cam0" "walk" 1 (5 / 2))
      = "out/video_S_1_cam0_walk_1.0s_2.5s.mp4"
  rw [hfile]
  rfl

/-- Claim C9: on every exit path of `process_video` each handle that reported
open is released before the return: an opened capture is always released, an
opened writer is always released, and on the early return where the writer
fails to open the source capture is released first while the writer (never
opened) stays unreleased. -/
theorem handles_released {α : Type} (found opens writerOpens : Bool) (fps0 : ℚ)
    (frames : List α) (raw : String) (a b : ℚ) (clip_only : Bool) :
    ((process_video found opens writerOpens fps0 frames raw a b clip_only).capOpened = true →
      (process_video found opens writerOpens fps0 frames raw a b clip_only).capReleased = true) ∧
    ((process_video found opens writerOpens fps0 frames raw a b clip_only).writerOpened = true →
      (process_video found opens writerOpens fps0 frames raw a b clip_only).writerReleased = true) ∧
    (found = true → opens = true → writerOpens = false →
      (process_video found opens writerOpens fps0 frames raw a b clip_only).capReleased = true ∧
      (process_video found opens writerOpens fps0 frames raw a b clip_only).writerOpened = false ∧
      (process_video found opens writerOpens fps0 frames raw a b clip_only).writerReleased = false) := by
  cases found <;> cases opens <;> cases writerOpens <;>
    simp [process_video]

/-- Witness for C9 on the writer-open-failure path. -/
theorem handles_released_witness :
    (process_video true true false 30 ([] : List Nat) "7" 1 2 true).capReleased = true ∧
    (process_video true true false 30 ([] : List Nat) "7" 1 2 true).writerOpened = false ∧
    (process_video true true false 30 ([] : List Nat) "7" 1 2 true).writerReleased = false :=
  (handles_released true true false 30 ([] : List Nat) "7" 1 2 true).2.2 rfl rfl rfl

/-- Claim C10: when the source file is missing or cannot be opened,
`process_video` returns before the output writer is constructed: no output
file is created or opened, no frame is written, and an error-level diagnostic
is emitted. -/
theorem earlyReturn_noWriter {α : Type} (found opens writerOpens : Bool) (fps0 : ℚ)
    (frames : List α) (raw : String) (a b : ℚ) (clip_only : Bool)
    (h : found = false ∨ opens = false) :
    (process_video found opens writerOpens fps0 frames raw a b clip_only).writerConstructed = false ∧
    (process_video found opens writerOpens fps0 frames raw a b clip_only).writerOpened = false ∧
    (process_video found opens writerOpens fps0 frames raw a b clip_only).framesWritten = 0 ∧
    LogLevel.error ∈ (process_video found opens writerOpens fps0 frames raw a b clip_only).logs := by
  rcases h with h | h
  · subst h
    simp [process_video]
  · subst h
    cases found <;> simp [process_video]

/-- Witness for C10: a missing source file constructs no writer, writes no
frame, and logs an error. -/
theorem earlyReturn_noWriter_witness :
    (process_video false true true 30 ([] : List Nat) "7" 0 1 false).writerConstructed = false ∧
    (process_video false true true 30 ([] : List Nat) "7" 0 1 false).writerOpened = false ∧
    (process_video false true true 30 ([] : List Nat) "7" 0 1 false).framesWritten = 0 ∧
    LogLevel.error ∈ (process_video false true true 30 ([] : List Nat) "7" 0 1 false).logs :=
  earlyReturn_noWriter false true true 30 ([] : List Nat) "7" 0 1 false (Or.inl rfl)

end LabelVideos
